import Mathlib

/-!
Verification development for the `nih-plug-webview` editor core.

Shallow embedding of the editor lifecycle and message-bridge engine:
the inbound wire dispatch of `WebviewEditor::spawn`'s ipc handler
(src/lib.rs), the resize negotiation (`WindowHandler::resize`,
src/lib.rs, and `Context::resize_window`, src/handler.rs), the
thread-confinement guard (`SendCell`, src/safe_cell.rs), the outbound
text escaping (`send_message`, src/util.rs), the attach/detach
lifecycle (`WebviewEditor::spawn`, `EditorHandle`, src/lib.rs;
`TempWindow`, src/reparent.rs) and the parameter-change flag
(`Context::params_changed` and the three `param_*_changed`
notifications, src/lib.rs).

Strings on the wire are modelled as `List Char`; machine bytes as
`Nat` values below 256; thread identities as `Nat`; panics and
`std::process::exit(1)` as explicit outcomes.
-/

/-- Character code 96, the backtick, written numerically. -/
def backtickChar : Char := Char.ofNat 96

/-- Character code 92, the backslash, written numerically. -/
def backslashChar : Char := Char.ofNat 92

/-- Wire literal "frame" (src/lib.rs line 299). -/
def frameLit : List Char := ['f', 'r', 'a', 'm', 'e']

/-- Wire literal "text," (src/lib.rs line 322). -/
def textCommaLit : List Char := ['t', 'e', 'x', 't', ',']

/-- Wire literal "binary," (src/lib.rs line 326). -/
def binaryCommaLit : List Char := ['b', 'i', 'n', 'a', 'r', 'y', ',']

/-- Fuel-bounded model of Rust `str::trim_start_matches`: repeatedly
strip the pattern from the front while it is a front match.  Each
step removes at least one character when the pattern is nonempty, so
fuel equal to the subject's length makes the fuel bound unreachable;
the recursion is structural on the fuel so the model is executable. -/
def stripPatFuel (pat : List Char) : Nat → List Char → List Char
  | 0, s => s
  | Nat.succ fuel, s =>
    if pat ≠ [] ∧ pat.isPrefixOf s = true then
      stripPatFuel pat fuel (List.drop pat.length s)
    else s

/-- Model of Rust `str::trim_start_matches(pat)` (src/lib.rs
lines 323 and 327). -/
def stripPatAll (pat s : List Char) : List Char :=
  stripPatFuel pat s.length s

theorem stripPatFuel_stop (pat : List Char) (fuel : Nat) (s : List Char)
    (h : pat.isPrefixOf s = false) : stripPatFuel pat fuel s = s := by
  cases fuel <;> simp [stripPatFuel, h]

theorem stripPatFuel_step (pat : List Char) (fuel : Nat) (s : List Char)
    (hne : pat ≠ []) (h : pat.isPrefixOf s = true) :
    stripPatFuel pat (fuel + 1) s = stripPatFuel pat fuel (List.drop pat.length s) := by
  simp [stripPatFuel, hne, h]

theorem isPrefixOf_append_self (p t : List Char) : p.isPrefixOf (p ++ t) = true := by
  induction p with
  | nil => simp [List.isPrefixOf]
  | cons a as ih => simp [List.isPrefixOf, ih]

theorem drop_length_append (p t : List Char) : List.drop p.length (p ++ t) = t := by
  induction p with
  | nil => simp
  | cons a as ih => simp [ih]

/-- Stripping the pattern from `pat ++ t` yields exactly `t` when `t`
does not itself begin with the pattern. -/
theorem stripPatAll_append (p t : List Char) (hne : p ≠ [])
    (h : p.isPrefixOf t = false) : stripPatAll p (p ++ t) = t := by
  have hlen : (p ++ t).length = (p.length - 1 + t.length) + 1 := by
    cases p with
    | nil => exact absurd rfl hne
    | cons a as =>
      simp only [List.length_append, List.length_cons]
      omega
  rw [stripPatAll, hlen, stripPatFuel_step p _ _ hne (isPrefixOf_append_self p t),
    drop_length_append, stripPatFuel_stop p _ t h]

/-- Value of one symbol of the standard base64 alphabet
(`BASE64_STANDARD` of the `base64` crate), or `none` for a character
outside the alphabet. -/
def b64SymbolVal (c : Char) : Option Nat :=
  if 'A' ≤ c ∧ c ≤ 'Z' then some (c.toNat - 65)
  else if 'a' ≤ c ∧ c ≤ 'z' then some (c.toNat - 97 + 26)
  else if '0' ≤ c ∧ c ≤ '9' then some (c.toNat - 48 + 52)
  else if c = '+' then some 62
  else if c = '/' then some 63
  else none

/-- Model of `BASE64_STANDARD.decode` (the `base64` crate's standard
engine as used at src/lib.rs line 328): canonical padding is required
(input length a multiple of four, `=` only as final padding) and
trailing bits must be zero; `none` models `Err(DecodeError)`. -/
def base64Decode : List Char → Option (List Nat)
  | [] => some []
  | c1 :: c2 :: c3 :: c4 :: rest =>
    match b64SymbolVal c1, b64SymbolVal c2 with
    | some v1, some v2 =>
      if c3 = '=' then
        if c4 = '=' ∧ rest = [] ∧ v2 % 16 = 0 then
          some [v1 * 4 + v2 / 16]
        else none
      else
        match b64SymbolVal c3 with
        | some v3 =>
          if c4 = '=' then
            if rest = [] ∧ v3 % 4 = 0 then
              some [v1 * 4 + v2 / 16, (v2 % 16) * 16 + v3 / 4]
            else none
          else
            match b64SymbolVal c4 with
            | some v4 =>
              (base64Decode rest).map
                (fun tail =>
                  (v1 * 4 + v2 / 16) :: ((v2 % 16) * 16 + v3 / 4) ::
                    ((v3 % 4) * 64 + v4) :: tail)
            | none => none
        | none => none
    | _, _ => none
  | _ => none

/-- Inbound message as handed to user logic (`Message` in src/lib.rs
lines 74-78), bytes as naturals below 256. -/
inductive ModelMessage where
  | text (payload : List Char)
  | binary (bytes : List Nat)
deriving DecidableEq

/-- How one host-scheduled task ends: a normal return, a
`std::process::exit(1)` after a caught panic, or a panic that unwinds
out of the task uncaught. -/
inductive Outcome where
  | normal
  | processExit
  | unwind
deriving DecidableEq

/-- Diagnostic output events; `panicLog` is the `eprintln!` of a
caught panic (src/lib.rs lines 318, 522, 540). -/
inductive LogEvent where
  | panicLog
deriving DecidableEq

/-- Whether the user-supplied `EditorHandler` callbacks panic when
invoked; this is the free behavior of user logic the guard claims
range over. -/
structure UserLogic where
  framePanics : Bool
  messagePanics : Bool
deriving DecidableEq

/-- Observable effect of running the ipc handler closure on one
inbound wire string (src/lib.rs lines 278-332): whether `on_frame`
was entered, which messages reached `on_message`, which diagnostics
were printed, and how the task ended. -/
structure IpcResult where
  frameInvoked : Bool
  messageInvocations : List ModelMessage
  logs : List LogEvent
  outcome : Outcome
deriving DecidableEq

/-- Model of the `with_ipc_handler` closure of `WebviewEditor::spawn`
(src/lib.rs lines 274-333).  The "frame" branch runs `on_frame`
inside `catch_unwind`, printing and calling `exit(1)` on a caught
panic; the "text," and "binary," branches call `on_message` with no
guard, so a user panic there unwinds out of the handler; the
"binary," branch `unwrap`s the base64 decode, so a decode error is
itself an unguarded panic; any other message falls off the
`if`/`else if` chain with no logging and no callback. -/
def ipcHandler (u : UserLogic) (msg : List Char) : IpcResult :=
  if frameLit.isPrefixOf msg then
    if u.framePanics then
      ⟨true, [], [LogEvent.panicLog], Outcome.processExit⟩
    else ⟨true, [], [], Outcome.normal⟩
  else if textCommaLit.isPrefixOf msg then
    let payload := stripPatAll textCommaLit msg
    if u.messagePanics then
      ⟨false, [ModelMessage.text payload], [], Outcome.unwind⟩
    else ⟨false, [ModelMessage.text payload], [], Outcome.normal⟩
  else if binaryCommaLit.isPrefixOf msg then
    let payload := stripPatAll binaryCommaLit msg
    match base64Decode payload with
    | none => ⟨false, [], [], Outcome.unwind⟩
    | some bytes =>
      if u.messagePanics then
        ⟨false, [ModelMessage.binary bytes], [], Outcome.unwind⟩
      else ⟨false, [ModelMessage.binary bytes], [], Outcome.normal⟩
  else ⟨false, [], [], Outcome.normal⟩

/-- Event status returned by `on_window_event`
(`baseview::EventStatus`). -/
inductive EventStatusM where
  | captured
  | ignored
deriving DecidableEq

/-- Model of `baseview::WindowHandler::on_frame` for `WindowHandler`
(src/lib.rs lines 512-525): the user `on_frame` runs inside
`catch_unwind`; a caught panic is printed and the process exits. -/
def windowHandlerOnFrame (framePanics : Bool) : Outcome × List LogEvent :=
  if framePanics then (Outcome.processExit, [LogEvent.panicLog])
  else (Outcome.normal, [])

/-- Model of `baseview::WindowHandler::on_event` (src/lib.rs lines
527-544): the user `on_window_event` runs inside `catch_unwind`; on a
caught panic the process exits and no status is returned to the host,
otherwise the user's status is returned. -/
def windowHandlerOnEvent (eventPanics : Bool) (status : EventStatusM) :
    Outcome × List LogEvent × Option EventStatusM :=
  if eventPanics then (Outcome.processExit, [LogEvent.panicLog], none)
  else (Outcome.normal, [], some status)

/-- Model of `WindowHandler::resize` (src/lib.rs lines 472-491) and
the identical `Context::resize_window` (src/handler.rs lines
111-133).  The persisted size cell is threaded explicitly: `swap`
installs the requested pair and retains the old one; when the host's
`request_resize` returns `false` the old pair is stored back and
`false` is returned; otherwise the webview bounds are set (any error
there is logged, not propagated) and `true` is returned. -/
def resizeWindow (state : Float × Float) (w h : Float) (approve : Bool) :
    (Float × Float) × Bool :=
  let old := state
  let swapped := (w, h)
  if !approve then (old, false)
  else (swapped, true)

/-- Editor-side state observable by the resize protocol: the
persisted `WebviewState` size cell. -/
structure EdState where
  size : Float × Float

/-- Actions the resize/tick machinery performs. -/
inductive EdAction where
  | frameCallback
  | resizeApplied (w h : Float)

/-- Host-UI-thread events relevant to the resize/tick interplay: an
inbound "frame" wire message, or user logic calling
`Context::resize_window` with the host's answer given. -/
inductive EdEvent where
  | frameTick
  | resizeRequest (w h : Float) (approve : Bool)

/-- One event step.  The "frame" branch of the ipc handler
(src/lib.rs lines 299-320) only dispatches `on_frame`; it contains no
resize logic.  A resize request runs `resizeWindow` immediately,
within the call itself. -/
def edStep (st : EdState) (ev : EdEvent) : EdState × List EdAction :=
  match ev with
  | EdEvent.frameTick => (st, [EdAction.frameCallback])
  | EdEvent.resizeRequest w h approve =>
    let r := resizeWindow st.size w h approve
    if r.2 then (⟨r.1⟩, [EdAction.resizeApplied w h]) else (⟨r.1⟩, [])

/-- Run a list of events, accumulating the actions performed. -/
def runEd (st : EdState) : List EdEvent → EdState × List EdAction
  | [] => (st, [])
  | ev :: rest =>
    let sa := edStep st ev
    let rec2 := runEd sa.1 rest
    (rec2.1, sa.2 ++ rec2.2)

/-- Number of "frame" tick events in a trace. -/
def countFrameTicks : List EdEvent → Nat
  | [] => 0
  | EdEvent.frameTick :: rest => countFrameTicks rest + 1
  | EdEvent.resizeRequest _ _ _ :: rest => countFrameTicks rest

/-- Model of `SendCell` (src/safe_cell.rs lines 7-10): the wrapped
value together with the identity of the creating thread. -/
structure SendCellM (α : Type) where
  data : α
  tid : Nat

/-- Model of `SendCell::new` (src/safe_cell.rs lines 13-18): records
the identity of the calling thread. -/
def SendCellM.mk' (val : α) (currentThread : Nat) : SendCellM α :=
  ⟨val, currentThread⟩

/-- Result of an access: the value, or a process-terminating panic. -/
inductive AccessResult (α : Type) where
  | ok (val : α)
  | fatalPanic

/-- Model of `Deref::deref` for `SendCell` (src/safe_cell.rs lines
24-31): panics when the calling thread differs from the recorded
one, otherwise yields the wrapped value. -/
def SendCellM.deref (c : SendCellM α) (currentThread : Nat) : AccessResult α :=
  if c.tid ≠ currentThread then AccessResult.fatalPanic
  else AccessResult.ok c.data

/-- Model of `DerefMut::deref_mut` for `SendCell` (src/safe_cell.rs
lines 34-43): the same thread check as `deref`. -/
def SendCellM.derefMut (c : SendCellM α) (currentThread : Nat) : AccessResult α :=
  if c.tid ≠ currentThread then AccessResult.fatalPanic
  else AccessResult.ok c.data

/-- Result of running the destructor. -/
inductive DropOutcome where
  | ok
  | fatalPanic
deriving DecidableEq

/-- Model of `Drop::drop` for `SendCell` (src/safe_cell.rs lines
45-52): panics when dropped on a thread other than the creating
one. -/
def SendCellM.dropCheck (c : SendCellM α) (currentThread : Nat) : DropOutcome :=
  if c.tid ≠ currentThread then DropOutcome.fatalPanic else DropOutcome.ok

/-- Model of the outbound Text escaping of `send_message`
(src/util.rs line 20 and src/lib.rs lines 285, 496):
`text.replace` of the one-character pattern backtick by
backslash-backtick. -/
def escapeBackticks : List Char → List Char
  | [] => []
  | c :: rest =>
    if c = backtickChar then backslashChar :: backtickChar :: escapeBackticks rest
    else c :: escapeBackticks rest

/-- Modelled from the spec: the panel-side decoder (the
initialization script `lib.js` named at src/lib.rs line 273) is not
among the repository's staged sources.  Following the spec's words —
the payload is embedded in a backtick-delimited script literal with
every literal backtick backslash-escaped — decoding undoes exactly
that escaping: each leftmost backslash-backtick pair becomes a
backtick. -/
def unescapeBackticks : List Char → List Char
  | [] => []
  | [c] => [c]
  | c1 :: c2 :: rest =>
    if c1 = backslashChar ∧ c2 = backtickChar then
      backtickChar :: unescapeBackticks rest
    else c1 :: unescapeBackticks (c2 :: rest)

/-- Decidable check that a character list contains no bare backtick:
every backtick is immediately preceded by a backslash that escapes
it. -/
def noBareBacktick : List Char → Bool
  | [] => true
  | [c] => if c = backtickChar then false else true
  | c1 :: c2 :: rest =>
    if c1 = backtickChar then false
    else if c1 = backslashChar ∧ c2 = backtickChar then noBareBacktick rest
    else noBareBacktick (c2 :: rest)

/-- What one call to `WebviewEditor::spawn` reports: reuse of the
existing webview by reparenting, or construction of a new one.  The
number identifies the instance. -/
inductive SpawnResult where
  | reused (id : Nat)
  | constructed (id : Nat)
deriving DecidableEq

/-- Model of the lifecycle-relevant state of a `WebviewEditor`
(src/lib.rs lines 181-186 and 224-418): the
`Rc<RefCell<Option<Rc<WebView>>>>` slot holding the panel instance
(instances numbered for identity), a counter of constructions
performed (`build_as_child` calls), and a counter of invocations of
the user's `init` callback. -/
structure EditorModel where
  webviewSlot : Option Nat
  nextId : Nat
  constructions : Nat
  initCalls : Nat
deriving DecidableEq

/-- Model of `WebviewEditor::spawn` (src/lib.rs lines 225-418).  When
the slot already holds a webview, that instance is reparented into
the new parent window and returned — nothing is constructed and no
user callback runs (lines 234-251).  Otherwise a new webview is built
as a child of the parent window and stored in the slot (lines
358-364); no call to the user's `init` appears on this path either
(the only `editor.init` call in the file is inside the commented-out
`open_parented` block, lines 381-415). -/
def spawnEditor (m : EditorModel) : EditorModel × SpawnResult :=
  match m.webviewSlot with
  | some id => (m, SpawnResult.reused id)
  | none =>
    ({ webviewSlot := some m.nextId
       nextId := m.nextId + 1
       constructions := m.constructions + 1
       initCalls := m.initCalls },
     SpawnResult.constructed m.nextId)

/-- Platforms distinguished by src/reparent.rs. -/
inductive Platform where
  | macos
  | windows
  | linux
deriving DecidableEq

/-- Detach-time actions a drop could perform. -/
inductive DetachAction where
  | reparentToHolding
  | destroyInstance
deriving DecidableEq

/-- Model of `Drop for EditorHandle` (src/lib.rs lines 452-457): the
body is empty on every platform — it performs no reparenting and
does not destroy the instance, which stays in the editor's slot. -/
def dropEditorHandle (m : EditorModel) (_p : Platform) :
    EditorModel × List DetachAction :=
  (m, [])

/-- Model of `TempWindow::reparent_from` (src/reparent.rs lines
94-105): on Windows the webview is reparented into the invisible
holding window; on macOS and Linux the body ignores the webview and
does nothing. -/
def tempWindowReparentFrom (p : Platform) : List DetachAction :=
  match p with
  | Platform.windows => [DetachAction.reparentToHolding]
  | Platform.macos => []
  | Platform.linux => []

/-- Host-side parameter events against the shared `params_changed`
`AtomicBool` (src/lib.rs lines 183, 218, 430-440) and the
`Context::params_changed` query (src/lib.rs lines 109-111): the
three `param_*_changed` notifications each `store(true)`, the query
`swap(false)` returns the previous value. -/
inductive PEv where
  | notifyValues
  | notifyValue
  | notifyModulation
  | query
deriving DecidableEq

/-- Whether an event is the `params_changed` query. -/
def isQueryEv : PEv → Bool
  | PEv.query => true
  | _ => false

/-- Whether an event is one of the three host notifications. -/
def isNotifyEv : PEv → Bool
  | PEv.query => false
  | _ => true

/-- Flag value after processing a list of events starting from `b`:
each notification stores `true`, each query swaps in `false`. -/
def paramsFlagAfter (b : Bool) : List PEv → Bool
  | [] => b
  | PEv.query :: rest => paramsFlagAfter false rest
  | _ :: rest => paramsFlagAfter true rest

/-- Values returned by the queries in a list of events, in order,
starting from flag value `b`: a query returns the flag's previous
value and clears it. -/
def paramsQueryOutputs (b : Bool) : List PEv → List Bool
  | [] => []
  | PEv.query :: rest => b :: paramsQueryOutputs false rest
  | _ :: rest => paramsQueryOutputs true rest

/-- Number of queries in a list of events. -/
def countQueries : List PEv → Nat
  | [] => 0
  | PEv.query :: rest => countQueries rest + 1
  | _ :: rest => countQueries rest

/-- Specification-side reading of the claim: at least one
notification arrived after the most recent query (or since creation
when no query happened yet). -/
def specPending (pre : List PEv) : Bool :=
  (List.takeWhile (fun e => !(isQueryEv e)) pre.reverse).any isNotifyEv

theorem paramsQueryOutputs_append (b : Bool) (xs ys : List PEv) :
    paramsQueryOutputs b (xs ++ ys)
      = paramsQueryOutputs b xs ++ paramsQueryOutputs (paramsFlagAfter b xs) ys := by
  induction xs generalizing b with
  | nil => simp [paramsQueryOutputs, paramsFlagAfter]
  | cons e rest ih => cases e <;> simp [paramsQueryOutputs, paramsFlagAfter, ih]

theorem paramsFlagAfter_append (b : Bool) (xs ys : List PEv) :
    paramsFlagAfter b (xs ++ ys) = paramsFlagAfter (paramsFlagAfter b xs) ys := by
  induction xs generalizing b with
  | nil => simp [paramsFlagAfter]
  | cons e rest ih => cases e <;> simp [paramsFlagAfter, ih]

theorem length_paramsQueryOutputs (b : Bool) (xs : List PEv) :
    (paramsQueryOutputs b xs).length = countQueries xs := by
  induction xs generalizing b with
  | nil => rfl
  | cons e rest ih => cases e <;> simp [paramsQueryOutputs, countQueries, ih]

theorem countQueries_append (xs ys : List PEv) :
    countQueries (xs ++ ys) = countQueries xs + countQueries ys := by
  induction xs with
  | nil => simp [countQueries]
  | cons e rest ih =>
    cases e
    all_goals simp [countQueries, ih]
    all_goals omega

theorem get_append_length (xs : List Bool) (b : Bool) (ys : List Bool) :
    (xs ++ b :: ys).get? xs.length = some b := by
  induction xs with
  | nil => rfl
  | cons x rest ih => simpa using ih

theorem specPending_eq_flagAfter (pre : List PEv) :
    specPending pre = paramsFlagAfter false pre := by
  rcases List.eq_nil_or_concat pre with rfl | ⟨xs, e, rfl⟩
  · rfl
  · rw [List.concat_eq_append, paramsFlagAfter_append]
    cases e <;>
      simp [specPending, paramsFlagAfter, List.takeWhile, isQueryEv, isNotifyEv]

theorem backslash_ne_backtick : backslashChar ≠ backtickChar := by decide

theorem escapeBackticks_head_ne (l : List Char) :
    (escapeBackticks l).head? ≠ some backtickChar := by
  cases l with
  | nil => simp [escapeBackticks]
  | cons c rest =>
    by_cases h : c = backtickChar <;>
      simp [escapeBackticks, h, backslash_ne_backtick]

theorem escapeBackticks_eq_nil (l : List Char) (h : escapeBackticks l = []) :
    l = [] := by
  cases l with
  | nil => rfl
  | cons c rest =>
    by_cases hc : c = backtickChar <;> simp [escapeBackticks, hc] at h

theorem unescape_cons_pair (l : List Char) :
    unescapeBackticks (backslashChar :: backtickChar :: l)
      = backtickChar :: unescapeBackticks l := by
  simp [unescapeBackticks]

theorem unescape_cons_other (c d : Char) (t : List Char)
    (h : ¬(c = backslashChar ∧ d = backtickChar)) :
    unescapeBackticks (c :: d :: t) = c :: unescapeBackticks (d :: t) := by
  simp [unescapeBackticks, h]

theorem unescape_escape (s : List Char) :
    unescapeBackticks (escapeBackticks s) = s := by
  induction s with
  | nil => rfl
  | cons c rest ih =>
    by_cases h : c = backtickChar
    · subst h
      have hesc : escapeBackticks (backtickChar :: rest)
          = backslashChar :: backtickChar :: escapeBackticks rest := by
        simp [escapeBackticks]
      rw [hesc, unescape_cons_pair, ih]
    · cases hE : escapeBackticks rest with
      | nil =>
        have : rest = [] := escapeBackticks_eq_nil rest hE
        subst this
        simp [escapeBackticks, unescapeBackticks, h]
      | cons d t =>
        have hd : d ≠ backtickChar := by
          have := escapeBackticks_head_ne rest
          rw [hE] at this
          simpa using this
        have hcond : ¬(c = backslashChar ∧ d = backtickChar) := by
          rintro ⟨_, hdd⟩; exact hd hdd
        simp only [escapeBackticks, if_neg h, hE]
        rw [unescape_cons_other c d t hcond, ← hE, ih]

theorem noBare_cons_pair (l : List Char) :
    noBareBacktick (backslashChar :: backtickChar :: l) = noBareBacktick l := by
  simp [noBareBacktick, backslash_ne_backtick]

theorem noBare_cons_other (c d : Char) (t : List Char)
    (hc : ¬ c = backtickChar) (h : ¬(c = backslashChar ∧ d = backtickChar)) :
    noBareBacktick (c :: d :: t) = noBareBacktick (d :: t) := by
  simp [noBareBacktick, hc, h]

theorem noBareBacktick_escape (s : List Char) :
    noBareBacktick (escapeBackticks s) = true := by
  induction s with
  | nil => rfl
  | cons c rest ih =>
    by_cases h : c = backtickChar
    · subst h
      have hesc : escapeBackticks (backtickChar :: rest)
          = backslashChar :: backtickChar :: escapeBackticks rest := by
        simp [escapeBackticks]
      rw [hesc, noBare_cons_pair]
      exact ih
    · cases hE : escapeBackticks rest with
      | nil =>
        have : rest = [] := escapeBackticks_eq_nil rest hE
        subst this
        simp [escapeBackticks, noBareBacktick, h]
      | cons d t =>
        have hd : d ≠ backtickChar := by
          have := escapeBackticks_head_ne rest
          rw [hE] at this
          simpa using this
        have hcond : ¬(c = backslashChar ∧ d = backtickChar) := by
          rintro ⟨_, hdd⟩; exact hd hdd
        simp only [escapeBackticks, if_neg h, hE]
        rw [noBare_cons_other c d t h hcond, ← hE]
        exact ih

theorem textCommaLit_ne_nil : textCommaLit ≠ [] := by decide

theorem binaryCommaLit_ne_nil : binaryCommaLit ≠ [] := by decide

theorem frame_not_prefix_of_text (rest : List Char) :
    frameLit.isPrefixOf (textCommaLit ++ rest) = false := rfl

theorem frame_not_prefix_of_binary (rest : List Char) :
    frameLit.isPrefixOf (binaryCommaLit ++ rest) = false := rfl

theorem text_not_prefix_of_binary (rest : List Char) :
    textCommaLit.isPrefixOf (binaryCommaLit ++ rest) = false := rfl

/-- C1: for every persisted size, every requested pair and every host
reply, `resize_window` either leaves the size exactly as it was and
returns `false` (host refused) or sets it to exactly the requested
pair and returns `true` (host approved); the returned boolean equals
the host's answer, so a refusal is reported as `false`, never
escalated to an error. -/
theorem resizeWindowAtomicRollback :
    ∀ (s : Float × Float) (w h : Float) (approve : Bool),
      (((resizeWindow s w h approve).2 = false ∧ (resizeWindow s w h approve).1 = s) ∨
        ((resizeWindow s w h approve).2 = true ∧ (resizeWindow s w h approve).1 = (w, h)))
      ∧ (resizeWindow s w h approve).2 = approve := by
  intro s w h approve
  cases approve <;> simp [resizeWindow]

/-- C2 (amended): the per-tick callback (`on_frame`, both in the ipc
handler's "frame" branch and in `baseview::WindowHandler::on_frame`)
and the window-event callback (`on_window_event`) run inside a
`catch_unwind` boundary — a user panic there is logged and the
process exits immediately; the inbound-message callback
(`on_message`) runs with no such boundary, so a user panic there
unwinds out of the ipc handler into the host event loop instead of
terminating the process. -/
theorem panicGuardPerCallbackSite :
    ∀ (u : UserLogic) (rest : List Char) (ev : EventStatusM),
      (u.framePanics = true →
        ipcHandler u (frameLit ++ rest)
          = ⟨true, [], [LogEvent.panicLog], Outcome.processExit⟩)
      ∧ windowHandlerOnFrame true = (Outcome.processExit, [LogEvent.panicLog])
      ∧ windowHandlerOnFrame false = (Outcome.normal, [])
      ∧ windowHandlerOnEvent true ev = (Outcome.processExit, [LogEvent.panicLog], none)
      ∧ windowHandlerOnEvent false ev = (Outcome.normal, [], some ev)
      ∧ (u.messagePanics = true →
          (ipcHandler u (textCommaLit ++ rest)).outcome = Outcome.unwind) := by
  intro u rest ev
  refine ⟨?_, rfl, rfl, rfl, rfl, ?_⟩
  · intro hf
    simp [ipcHandler, isPrefixOf_append_self, hf]
  · intro hm
    simp [ipcHandler, frame_not_prefix_of_text, isPrefixOf_append_self, hm]

/-- C2 counterexample: the inbound message "text,hello" delivered to
a user handler whose `on_message` panics does not end in
`process::exit` — the panic unwinds uncaught out of the ipc handler,
so control is not taken from the host event loop by an immediate
termination, contrary to the claim. -/
theorem onMessagePanicEscapes :
    (ipcHandler ⟨false, true⟩
        ['t', 'e', 'x', 't', ',', 'h', 'e', 'l', 'l', 'o']).outcome = Outcome.unwind
    ∧ (ipcHandler ⟨false, true⟩
        ['t', 'e', 'x', 't', ',', 'h', 'e', 'l', 'l', 'o']).outcome
        ≠ Outcome.processExit := by
  decide

/-- C3 (amended): when a webview instance already exists, `spawn`
reuses exactly that instance by reparenting — no new instance is
constructed, the editor state is unchanged, and `init` is not
invoked; when no instance exists, `spawn` constructs a fresh one,
and on that path too the user's `init` callback is not invoked — the
code as written never invokes `init` at all. -/
theorem spawnReuseNoConstructNoInit :
    ∀ (m : EditorModel),
      (∀ id, m.webviewSlot = some id → spawnEditor m = (m, SpawnResult.reused id))
      ∧ (m.webviewSlot = none →
          spawnEditor m
            = ({ webviewSlot := some m.nextId
                 nextId := m.nextId + 1
                 constructions := m.constructions + 1
                 initCalls := m.initCalls },
               SpawnResult.constructed m.nextId))
      ∧ (spawnEditor m).1.initCalls = m.initCalls := by
  intro m
  cases h : m.webviewSlot with
  | none =>
    refine ⟨?_, ?_, ?_⟩
    · intro id hid
      exact Option.noConfusion hid
    · intro _
      simp [spawnEditor, h]
    · simp [spawnEditor, h]
  | some id =>
    refine ⟨?_, ?_, ?_⟩
    · intro id2 hid
      injection hid with he
      subst he
      simp [spawnEditor, h]
    · intro hn
      exact Option.noConfusion hn
    · simp [spawnEditor, h]

/-- C3 counterexample: the very first `spawn` on a fresh editor
performs a construction of the panel instance, yet the user's `init`
callback is invoked zero times, not exactly once per construction as
the claim states. -/
theorem constructionWithoutInit :
    (spawnEditor ⟨none, 0, 0, 0⟩).2 = SpawnResult.constructed 0
    ∧ (spawnEditor ⟨none, 0, 0, 0⟩).1.constructions = 1
    ∧ (spawnEditor ⟨none, 0, 0, 0⟩).1.initCalls = 0
    ∧ (spawnEditor ⟨none, 0, 0, 0⟩).1.initCalls
        ≠ (spawnEditor ⟨none, 0, 0, 0⟩).1.constructions := by
  decide

/-- C4 (amended): inbound dispatch tests leading patterns in order
with `starts_with`, not exact equality: any string beginning with
"frame" is treated as the tick; a string beginning with "text," (and
not with "frame") yields `on_message` with the Text payload obtained
by stripping every leading repetition of "text," (equal to the plain
remainder whenever that remainder does not itself begin with
"text,"); a string beginning with "binary," yields the Binary
payload of the base64-decoded stripped remainder.  The claim's
concrete scenarios hold: "text,hello" yields Text "hello" and
"binary,aGVsbG8=" yields Binary [104,101,108,108,111]. -/
theorem ipcDispatchByLeadingPattern :
    ∀ (u : UserLogic) (rest : List Char),
      ((ipcHandler u (frameLit ++ rest)).frameInvoked = true
        ∧ (ipcHandler u (frameLit ++ rest)).messageInvocations = [])
      ∧ (u.messagePanics = false → textCommaLit.isPrefixOf rest = false →
          ipcHandler u (textCommaLit ++ rest)
            = ⟨false, [ModelMessage.text rest], [], Outcome.normal⟩)
      ∧ (∀ bytes, u.messagePanics = false → binaryCommaLit.isPrefixOf rest = false →
          base64Decode rest = some bytes →
          ipcHandler u (binaryCommaLit ++ rest)
            = ⟨false, [ModelMessage.binary bytes], [], Outcome.normal⟩)
      ∧ ipcHandler ⟨false, false⟩
          ['t', 'e', 'x', 't', ',', 'h', 'e', 'l', 'l', 'o']
          = ⟨false, [ModelMessage.text ['h', 'e', 'l', 'l', 'o']], [], Outcome.normal⟩
      ∧ ipcHandler ⟨false, false⟩
          ['b', 'i', 'n', 'a', 'r', 'y', ',', 'a', 'G', 'V', 's', 'b', 'G', '8', '=']
          = ⟨false, [ModelMessage.binary [104, 101, 108, 108, 111]], [],
              Outcome.normal⟩ := by
  intro u rest
  refine ⟨?_, ?_, ?_, by decide, by decide⟩
  · cases hf : u.framePanics <;>
      simp [ipcHandler, isPrefixOf_append_self, hf]
  · intro hm hrest
    simp [ipcHandler, frame_not_prefix_of_text, isPrefixOf_append_self, hm,
      stripPatAll_append textCommaLit rest textCommaLit_ne_nil hrest]
  · intro bytes hm hrest hdec
    simp [ipcHandler, frame_not_prefix_of_binary, text_not_prefix_of_binary,
      isPrefixOf_append_self,
      stripPatAll_append binaryCommaLit rest binaryCommaLit_ne_nil hrest, hdec, hm]

/-- C4 counterexample: the wire string "framex" is dispatched as a
tick (`on_frame` is invoked) although it is not the exact value
"frame"; and the wire string "text,text,a" yields Text "a", not Text
of the exact remainder "text,a" after the first "text," — both
contrary to the claim. -/
theorem frameDispatchNotExact :
    (ipcHandler ⟨false, false⟩ ['f', 'r', 'a', 'm', 'e', 'x']).frameInvoked = true
    ∧ ['f', 'r', 'a', 'm', 'e', 'x'] ≠ frameLit
    ∧ (ipcHandler ⟨false, false⟩
        ['t', 'e', 'x', 't', ',', 't', 'e', 'x', 't', ',', 'a']).messageInvocations
        = [ModelMessage.text ['a']]
    ∧ (['a'] : List Char) ≠ ['t', 'e', 'x', 't', ',', 'a'] := by
  decide

/-- C5 (amended): an inbound wire string with an unrecognized leading
pattern falls off the dispatch chain — no user callback, no state
change, no panic — but also with no diagnostic log line; and a
"binary," message whose stripped remainder is not valid base64 is
fatal after all: the `unwrap` panics and the unwind escapes the
handler uncaught. -/
theorem malformedInboundHandling :
    ∀ (u : UserLogic) (msg rest : List Char),
      (frameLit.isPrefixOf msg = false → textCommaLit.isPrefixOf msg = false →
        binaryCommaLit.isPrefixOf msg = false →
        ipcHandler u msg = ⟨false, [], [], Outcome.normal⟩)
      ∧ (binaryCommaLit.isPrefixOf rest = false →
          base64Decode rest = none →
          ipcHandler u (binaryCommaLit ++ rest)
            = ⟨false, [], [], Outcome.unwind⟩) := by
  intro u msg rest
  constructor
  · intro h1 h2 h3
    simp [ipcHandler, h1, h2, h3]
  · intro h1 h2
    simp [ipcHandler, frame_not_prefix_of_binary, text_not_prefix_of_binary,
      isPrefixOf_append_self,
      stripPatAll_append binaryCommaLit rest binaryCommaLit_ne_nil h1, h2]

/-- C5 counterexample: the inbound string "binary,!!" has an invalid
base64 remainder and its handling is fatal (the decode `unwrap`
panics and unwinds), not a logged discard; and the unrecognized
string "bogus" is discarded with no diagnostic log line at all —
both contrary to the claim. -/
theorem invalidBase64FatalNoLog :
    (ipcHandler ⟨false, false⟩
        ['b', 'i', 'n', 'a', 'r', 'y', ',', '!', '!']).outcome = Outcome.unwind
    ∧ (ipcHandler ⟨false, false⟩
        ['b', 'i', 'n', 'a', 'r', 'y', ',', '!', '!']).outcome ≠ Outcome.normal
    ∧ (ipcHandler ⟨false, false⟩ ['b', 'o', 'g', 'u', 's']).logs = []
    ∧ (ipcHandler ⟨false, false⟩ ['b', 'o', 'g', 'u', 's']).messageInvocations = [] := by
  decide

/-- C6: for every wrapped value, shared access, mutable access and
destruction of the thread-confinement guard fail fatally exactly
when the calling thread differs from the creating thread, and
succeed with the wrapped value otherwise; a freshly created cell
accessed on the creating thread yields the wrapped value. -/
theorem sendCellThreadConfinement :
    ∀ (α : Type) (c : SendCellM α) (cur : Nat),
      (SendCellM.deref c cur = AccessResult.fatalPanic ↔ cur ≠ c.tid)
      ∧ (SendCellM.deref c cur = AccessResult.ok c.data ↔ cur = c.tid)
      ∧ (SendCellM.derefMut c cur = AccessResult.fatalPanic ↔ cur ≠ c.tid)
      ∧ (SendCellM.derefMut c cur = AccessResult.ok c.data ↔ cur = c.tid)
      ∧ (SendCellM.dropCheck c cur = DropOutcome.fatalPanic ↔ cur ≠ c.tid)
      ∧ (SendCellM.dropCheck c cur = DropOutcome.ok ↔ cur = c.tid)
      ∧ (∀ v : α, SendCellM.deref (SendCellM.mk' v cur) cur = AccessResult.ok v) := by
  intro α c cur
  by_cases h : c.tid = cur
  · simp [SendCellM.deref, SendCellM.derefMut, SendCellM.dropCheck, SendCellM.mk', h]
  · have h' : ¬ cur = c.tid := fun hh => h hh.symm
    simp [SendCellM.deref, SendCellM.derefMut, SendCellM.dropCheck, SendCellM.mk', h, h']

/-- C7: the outbound Text encoding backslash-escapes every literal
backtick (its output contains no unescaped backtick), and decoding
the escaped form — the panel-side decoder modelled from the spec as
the inverse of the backtick escaping — recovers the original string
exactly, for every string, including those containing backticks and
backslashes. -/
theorem textEscapeRoundTrip :
    ∀ (s : List Char),
      noBareBacktick (escapeBackticks s) = true
      ∧ unescapeBackticks (escapeBackticks s) = s :=
  fun s => ⟨noBareBacktick_escape s, unescape_escape s⟩

/-- C8 (amended): a "frame" tick never performs a resize call — the
frame branch only dispatches `on_frame` and leaves the size
unchanged; a resize request is applied immediately inside
`resize_window` itself, exactly once at request time (or rolled back
on refusal), whether or not any tick has yet occurred — nothing is
deferred to the next tick. -/
theorem resizeAppliedImmediatelyNotDeferred :
    ∀ (st : EdState) (w h : Float),
      edStep st EdEvent.frameTick = (st, [EdAction.frameCallback])
      ∧ edStep st (EdEvent.resizeRequest w h true)
          = (⟨(w, h)⟩, [EdAction.resizeApplied w h])
      ∧ edStep st (EdEvent.resizeRequest w h false) = (st, []) := by
  intro st w h
  refine ⟨rfl, ?_, ?_⟩ <;> simp [edStep, resizeWindow]

/-- C8 counterexample: a resize requested while no tick has yet
occurred (a trace with zero "frame" ticks) is performed at once —
the persisted size is already the new pair and a resize action was
already emitted — rather than being deferred to the first subsequent
tick as the claim states. -/
theorem resizeBeforeTickNotDeferred :
    (runEd ⟨(350.0, 250.0)⟩ [EdEvent.resizeRequest 500.0 400.0 true]).2
        = [EdAction.resizeApplied 500.0 400.0]
    ∧ (runEd ⟨(350.0, 250.0)⟩ [EdEvent.resizeRequest 500.0 400.0 true]).2 ≠ []
    ∧ countFrameTicks [EdEvent.resizeRequest 500.0 400.0 true] = 0
    ∧ (runEd ⟨(350.0, 250.0)⟩ [EdEvent.resizeRequest 500.0 400.0 true]).1.size
        = (500.0, 400.0) := by
  refine ⟨rfl, ?_, rfl, rfl⟩
  simp [runEd, edStep, resizeWindow]

/-- C9 (amended): releasing the `EditorHandle` (host-requested
detach) is a no-op on every platform — the `Drop` body is empty, so
no reparenting into a holding window happens and the panel instance
is not destroyed: the editor's slot still holds it afterwards.  The
holding-window helper itself (`TempWindow::reparent_from`) reparents
on Windows and no-ops on macOS and Linux, but nothing invokes it on
detach. -/
theorem detachNoOpPreservesInstance :
    ∀ (m : EditorModel) (p : Platform),
      dropEditorHandle m p = (m, [])
      ∧ (dropEditorHandle m p).1.webviewSlot = m.webviewSlot
      ∧ DetachAction.destroyInstance ∉ (dropEditorHandle m p).2
      ∧ tempWindowReparentFrom Platform.windows = [DetachAction.reparentToHolding]
      ∧ tempWindowReparentFrom Platform.macos = []
      ∧ tempWindowReparentFrom Platform.linux = [] := by
  intro m p
  refine ⟨rfl, rfl, ?_, rfl, rfl, rfl⟩
  simp [dropEditorHandle]

/-- C9 counterexample: on Windows — the platform the claim says
requires an explicit ownership transfer into an invisible holding
window — dropping the `EditorHandle` of an editor holding instance 7
performs no reparent-to-holding action at all. -/
theorem detachNoHoldingReparent :
    DetachAction.reparentToHolding ∉
      (dropEditorHandle ⟨some 7, 8, 1, 0⟩ Platform.windows).2 := by
  decide

/-- C10: in any event history, a `params_changed` query returns
`true` exactly when at least one of the three host notifications
arrived after the most recent earlier query (or since editor
creation for the first query), and the query clears the flag, so an
immediately repeated query with no intervening notification returns
`false`. -/
theorem paramsChangedReadAndClear :
    ∀ (pre post : List PEv),
      (paramsQueryOutputs false (pre ++ PEv.query :: post)).get? (countQueries pre)
        = some (specPending pre)
      ∧ (paramsQueryOutputs false
            (pre ++ PEv.query :: PEv.query :: post)).get? (countQueries pre + 1)
        = some false := by
  intro pre post
  constructor
  · rw [paramsQueryOutputs_append]
    have h1 : paramsQueryOutputs (paramsFlagAfter false pre) (PEv.query :: post)
        = paramsFlagAfter false pre :: paramsQueryOutputs false post := rfl
    rw [h1, ← length_paramsQueryOutputs false pre, get_append_length,
      specPending_eq_flagAfter]
  · have hsplit : pre ++ PEv.query :: PEv.query :: post
        = (pre ++ [PEv.query]) ++ PEv.query :: post := by
      simp
    rw [hsplit, paramsQueryOutputs_append]
    have h2 : paramsQueryOutputs (paramsFlagAfter false (pre ++ [PEv.query]))
          (PEv.query :: post)
        = paramsFlagAfter false (pre ++ [PEv.query])
            :: paramsQueryOutputs false post := rfl
    have h3 : countQueries pre + 1
        = (paramsQueryOutputs false (pre ++ [PEv.query])).length := by
      rw [length_paramsQueryOutputs, countQueries_append]
      rfl
    have h4 : paramsFlagAfter false (pre ++ [PEv.query]) = false := by
      rw [paramsFlagAfter_append]
      rfl
    rw [h2, h3, get_append_length, h4]
